import Mathlib

/-!
Verification development for the identity-management service's query filter
builder (pkg/db/common.go) and the password-compare handler
(pkg/service/im/resource/user_password_control.go).

The query chain is modelled as the list of clauses attached to the underlying
query builder; Go loops are modelled as left folds; Go standard-library string
operations (strings.Split, strings.Join, strings.HasSuffix) are embedded as
structural functions over character lists so that all definitions evaluate
inside the kernel.
-/

namespace Im

/-! ## Data model -/

/-- Normalized filter value: a non-empty list of scalars (strings or int32s). -/
inductive FilterValue where
  | strs (l : List String)
  | ints (l : List Int)
deriving DecidableEq

/-- One clause attached to the query chain: an `IN` predicate with bound
parameters, a raw condition string (gorm `Where(condition)`), or an
ordering clause (gorm `Order(s)`). -/
inductive Clause where
  | whereIn (column : String) (v : FilterValue)
  | whereRaw (cond : String)
  | orderBy (s : String)
deriving DecidableEq

/-- The query chain: the sequence of clauses attached so far. -/
abbrev Chain := List Clause

/-- Shape of a request field's runtime value as dispatched by `getReqValue`:
plain string, `*wrappers.StringValue`, `*wrappers.Int32Value` (nil pointers
modelled by `none`), `[]string`, or any other type. -/
inductive ReqValue where
  | str (s : String)
  | wrappedString (v : Option String)
  | wrappedInt (v : Option Int)
  | strList (l : List String)
  | other
deriving DecidableEq

/-- A request field as seen through `structs.Fields`: its `json` tag and
its runtime value. -/
structure ReqField where
  tag : String
  value : ReqValue
deriving DecidableEq

/-- Modelled from the spec: the `constants` package is not under src/. The
spec describes read-only per-table metadata: a mapping from table name to its
indexed columns (a Go map, so lookup can miss), a mapping from table name to
its searchable columns (missing key yields the empty list, as a nil slice),
and the set of tables that support free-text search. Claims quantify over
tables, so the maps are kept as parameters. -/
structure TableMeta where
  indexedColumns : String → Option (List String)
  searchColumns : String → List String
  searchWordColumnTable : List String

/-! ## Go standard-library string operations, embedded structurally -/

/-- Characters split on a separator character; models Go
`strings.Split(s, sep)` for a one-character separator: the result is never
empty, and splitting the empty string yields one empty group. -/
def splitChars (sep : Char) : List Char → List (List Char)
  | [] => [[]]
  | c :: cs =>
    let r := splitChars sep cs
    if c = sep then [] :: r
    else
      match r with
      | [] => [[c]]
      | g :: gs => (c :: g) :: gs

/-- Models Go `strings.Split(s, ",")`. -/
def goSplitComma (s : String) : List String :=
  (splitChars (',') s.data).map String.mk

/-- Models Go `strings.Join(elems, sep)`. -/
def joinSep (sep : String) : List String → String
  | [] => ""
  | [x] => x
  | x :: xs => x ++ sep ++ joinSep sep xs

/-- Models Go `strings.HasSuffix(s, suf)`. -/
def hasSuffix (s suf : String) : Bool :=
  List.isSuffixOf suf.data s.data

/-! ## Repository helpers not under src/, modelled from the spec -/

/-- Modelled from the spec: `stringutil.Contains` is not under src/; the spec
reads it as membership of a string in a column set. -/
def stringutilContains (l : List String) (s : String) : Bool :=
  l.contains s

/-- Modelled from the spec: `stringutil.SimplifyString` is not under src/.
The spec states that search terms and root-group ids are "neutralized against
wildcard/escape metacharacters used by the underlying pattern-match operator",
so it is modelled as escaping the LIKE metacharacters percent, underscore and
backslash with a backslash. -/
def simplifyString (s : String) : String :=
  String.mk (s.data.flatMap (fun c =>
    if c = '%' ∨ c = '_' ∨ c = '\\' then ['\\', c] else [c]))

/-- Modelled from the spec: `constants.ColumnGroupPath` is not under src/; the
spec calls it the hierarchical "group path" column. -/
def ColumnGroupPath : String := "group_path"

/-! ## pkg/db/common.go -/

def DefaultOffset : Nat := 0

def DefaultLimit : Nat := 20

def DefaultSelectLimit : Nat := 200

/-- Embeds `GetLimit` (the `n < 0` guard is vacuous for the unsigned type,
and is kept as in the source). -/
def GetLimit (n : Nat) : Nat :=
  let n1 := if n < 0 then 0 else n
  if n1 > DefaultSelectLimit then DefaultSelectLimit else n1

/-- Embeds `GetOffset`. -/
def GetOffset (n : Nat) : Nat :=
  if n < 0 then 0 else n

/-- A request carrying pagination values (`GetOffset() uint32`,
`GetLimit() uint32`). -/
structure PageRequest where
  offset : Nat
  limit : Nat

/-- Embeds `GetOffsetFromRequest`. -/
def GetOffsetFromRequest (req : PageRequest) : Nat :=
  if req.offset = 0 then DefaultOffset else GetOffset req.offset

/-- Embeds `GetLimitFromRequest`. -/
def GetLimitFromRequest (req : PageRequest) : Nat :=
  if req.limit = 0 then DefaultLimit else GetLimit req.limit

def TagName : String := "json"

def SearchWordColumnName : String := "search_word"

def RootGroupIdColumnName : String := "root_group_id"

/-- Embeds `getReqValue`: normalization of a request field value into either
`none` (absent) or a non-empty list of scalars. -/
def getReqValue : ReqValue → Option FilterValue
  | .str s => if s = "" then none else some (.strs [s])
  | .wrappedString none => none
  | .wrappedString (some s) => some (.strs [s])
  | .wrappedInt none => none
  | .wrappedInt (some n) => some (.ints [n])
  | .strList l =>
    let values := l.foldl (fun acc v => if v ≠ "" then acc ++ [v] else acc) []
    if values.length = 0 then none else some (.strs values)
  | .other => none

/-- Embeds `GetDisplayColumns`; the Go distinction between a nil slice and an
empty slice is modelled with `Option`. -/
def GetDisplayColumns (displayColumns : Option (List String)) (wholeColumns : List String) : List String :=
  match displayColumns with
  | none => wholeColumns
  | some ds =>
    if ds.length = 0 then []
    else ds.foldl (fun acc column =>
      if stringutilContains wholeColumns column then acc ++ [column] else acc) []

/-- Embeds `getFieldName`: split the `json` tag on commas and take the first
piece, with a `"-"` default when the split is empty. -/
def getFieldName (f : ReqField) : String :=
  let t := goSplitComma f.tag
  match t with
  | [] => "-"
  | x :: _ => x

/-- Per-id condition built by `BuildRootGroupIdConditions`. -/
def rootGroupCondition (v : String) : String :=
  let likeV := "%" ++ simplifyString v ++ "%"
  ColumnGroupPath ++ " LIKE \x27" ++ likeV ++ "\x27"

/-- Embeds `BuildRootGroupIdConditions`. -/
def BuildRootGroupIdConditions (chain : Chain) (rootGroupIds : List String) : Chain :=
  if rootGroupIds.length > 0 then
    let conditions := rootGroupIds.foldl (fun acc v => acc ++ [rootGroupCondition v]) []
    let condition := joinSep (" OR ") conditions
    chain ++ [Clause.whereRaw condition]
  else chain

/-- Per-term, per-column sub-clause built inside `getSearchFilter`: exact
match for `_id`-suffixed columns, substring match otherwise. -/
def searchSubClause (v column : String) : String :=
  if hasSuffix column ("_id") then
    column ++ " = \x27" ++ v ++ "\x27"
  else
    let likeV := "%" ++ simplifyString v ++ "%"
    column ++ " LIKE \x27" ++ likeV ++ "\x27"

/-- The nested loop of `getSearchFilter` accumulating `orConditions` over all
search terms and all searchable columns of the table. -/
def searchOrLoop (meta : TableMeta) (tableName : String) (exclude : List String) (vs : List String) : List String :=
  vs.foldl (fun acc v =>
    (meta.searchColumns tableName).foldl (fun acc2 column =>
      if stringutilContains exclude column then acc2
      else acc2 ++ [searchSubClause v column]) acc) []

/-- Embeds `getSearchFilter`. The state is the chain plus a flag recording
whether the "search_word is not []string" warning was logged. In every path
the built condition string (possibly empty) is attached with `Where`. -/
def getSearchFilter (meta : TableMeta) (tableName : String) (value : Option FilterValue)
    (exclude : List String) (st : Chain × Bool) : Chain × Bool :=
  match value with
  | some (.strs vs) =>
    let orConditions := searchOrLoop meta tableName exclude vs
    let andConditions : List String := [joinSep (" OR ") orConditions]
    let condition := joinSep (" AND ") andConditions
    (st.1 ++ [Clause.whereRaw condition], st.2)
  | some (.ints _) =>
    (st.1 ++ [Clause.whereRaw (joinSep (" AND ") [])], true)
  | none =>
    (st.1 ++ [Clause.whereRaw (joinSep (" AND ") [])], st.2)

/-- First block of the `buildFilterConditions` loop body: attach an `IN`
predicate when the table has an indexed-column set containing this field's
column and the value normalizes to non-absent. -/
def indexedStep (meta : TableMeta) (tableName : String) (st : Chain × Bool)
    (column : String) (param : ReqValue) : Chain × Bool :=
  match meta.indexedColumns tableName with
  | some indexedColumns =>
    if stringutilContains indexedColumns column then
      match getReqValue param with
      | some value => (st.1 ++ [Clause.whereIn column value], st.2)
      | none => st
    else st
  | none => st

/-- Second block of the `buildFilterConditions` loop body: run the search
filter when the column is the search-word column and the table is
search-capable. -/
def searchStep (meta : TableMeta) (tableName : String) (exclude : List String)
    (st : Chain × Bool) (column : String) (param : ReqValue) : Chain × Bool :=
  if column = SearchWordColumnName ∧ stringutilContains meta.searchWordColumnTable tableName = true then
    getSearchFilter meta tableName (getReqValue param) exclude st
  else st

/-- One iteration of the `buildFilterConditions` field loop. -/
def processField (meta : TableMeta) (tableName : String) (exclude : List String)
    (st : Chain × Bool) (f : ReqField) : Chain × Bool :=
  searchStep meta tableName exclude
    (indexedStep meta tableName st (getFieldName f) f.value)
    (getFieldName f) f.value

/-- Embeds `buildFilterConditions`: fold the loop body over the request's
fields. -/
def buildFilterConditions (meta : TableMeta) (st : Chain × Bool) (req : List ReqField)
    (tableName : String) (exclude : List String) : Chain × Bool :=
  req.foldl (processField meta tableName exclude) st

/-- Embeds `BuildFilterConditions`. -/
def BuildFilterConditions (meta : TableMeta) (chain : Chain) (req : List ReqField)
    (tableName : String) (exclude : List String) : Chain × Bool :=
  buildFilterConditions meta (chain, false) req tableName exclude

/-- A request as seen by `AddQueryOrderDir`: `sortKey` is `some` when the
request implements `RequestWithSortKey`, `reverse` is `some` when it
implements `RequestWithReverse`. -/
structure OrderRequest where
  sortKey : Option String
  reverse : Option Bool
deriving DecidableEq

/-- Embeds `AddQueryOrderDir`. -/
def AddQueryOrderDir (chain : Chain) (req : OrderRequest) (defaultColumn : String) : Chain :=
  let order := match req.reverse with
    | some true => "ASC"
    | some false => "DESC"
    | none => "DESC"
  let column := match req.sortKey with
    | some s => if s ≠ "" then s else defaultColumn
    | none => defaultColumn
  chain ++ [Clause.orderBy (column ++ " " ++ order)]

/-- Recognizer for `IN` predicates among chain clauses. -/
def Clause.isWhereIn : Clause → Bool
  | .whereIn _ _ => true
  | _ => false

/-! ## Spec-side definitions, stated from the claims' wording -/

/-- The search clause as claim C2 words it: one OR-group per term, each over
the non-excluded searchable columns, the per-term groups combined with AND. -/
def specSearchClause (meta : TableMeta) (tableName : String) (exclude : List String)
    (terms : List String) : String :=
  joinSep (" AND ") (terms.map (fun v =>
    joinSep (" OR ")
      (((meta.searchColumns tableName).filter (fun c => !(stringutilContains exclude c))).map
        (fun c => searchSubClause v c))))

/-- The search clause the code actually builds: a single OR-group over all
(term, non-excluded searchable column) pairs. -/
def codeSearchClause (meta : TableMeta) (tableName : String) (exclude : List String)
    (terms : List String) : String :=
  joinSep (" OR ") (terms.flatMap (fun v =>
    ((meta.searchColumns tableName).filter (fun c => !(stringutilContains exclude c))).map
      (fun c => searchSubClause v c)))

/-- Sort column as claim C9 words it. -/
def specSortColumn (req : OrderRequest) (defaultColumn : String) : String :=
  match req.sortKey with
  | some s => if s = "" then defaultColumn else s
  | none => defaultColumn

/-- Sort direction as claim C9 words it. -/
def specOrderDir (req : OrderRequest) : String :=
  if req.reverse = some true then "ASC" else "DESC"

/-! ## pkg/service/im/resource/user_password_control.go -/

/-- The user row fetched by the `Take` lookup in `ComparePassword`. -/
structure User where
  userId : String
  password : String
deriving DecidableEq

/-- Response type of `ComparePassword`. -/
structure ComparePasswordResponse where
  ok : Bool
deriving DecidableEq

/-- The Go pair (`*pb.ComparePasswordResponse`, `error`). -/
structure CPResult where
  resp : Option ComparePasswordResponse
  err : Option String
deriving DecidableEq

/-- Embeds `ComparePassword`. The database lookup result and the bcrypt
comparison (an external library; `bcryptMatches h p = true` models
`bcrypt.CompareHashAndPassword` returning nil) are parameters. -/
def ComparePassword (takeUser : Except String User)
    (bcryptMatches : String → String → Bool) (reqPassword : String) : CPResult :=
  match takeUser with
  | .error e => ⟨none, some e⟩
  | .ok user =>
    if bcryptMatches user.password reqPassword then ⟨some ⟨true⟩, none⟩
    else ⟨some ⟨false⟩, none⟩

/-- A concrete table-metadata sample used in counterexamples and witnesses. -/
def sampleMeta : TableMeta :=
  ⟨fun t => if t = "user" then some (["user_id", "status"]) else none,
   fun t => if t = "user" then ["user_id", "username", "description"] else [],
   ["user"]⟩

/-! ## Helper lemmas -/

theorem stringutilContains_iff (l : List String) (s : String) :
    stringutilContains l s = true ↔ s ∈ l := by
  simp [stringutilContains]

theorem strListLoop_eq (l : List String) :
    ∀ acc : List String,
      l.foldl (fun acc v => if v ≠ "" then acc ++ [v] else acc) acc
        = acc ++ l.filter (fun v => v ≠ "") := by
  induction l with
  | nil => intro acc; simp
  | cons x xs ih =>
    intro acc
    simp only [List.foldl_cons]
    by_cases h : x = ""
    · rw [if_neg (by simp [h]), ih, List.filter_cons, if_neg (by simp [h])]
    · rw [if_pos h, ih, List.filter_cons, if_pos (by simp [h])]
      simp

theorem displayLoop_eq (whole : List String) (l : List String) :
    ∀ acc : List String,
      l.foldl (fun acc column =>
        if stringutilContains whole column then acc ++ [column] else acc) acc
        = acc ++ l.filter (fun c => stringutilContains whole c) := by
  induction l with
  | nil => intro acc; simp
  | cons x xs ih =>
    intro acc
    cases h : stringutilContains whole x <;> simp [h, ih]

theorem rootGroupLoop_eq (l : List String) :
    ∀ acc : List String,
      l.foldl (fun acc v => acc ++ [rootGroupCondition v]) acc
        = acc ++ l.map rootGroupCondition := by
  induction l with
  | nil => intro acc; simp
  | cons x xs ih => intro acc; simp [ih]

theorem columnsLoop_eq (excl : List String) (v : String) (cols : List String) :
    ∀ acc : List String,
      cols.foldl (fun acc2 column =>
        if stringutilContains excl column then acc2
        else acc2 ++ [searchSubClause v column]) acc
      = acc ++ (cols.filter (fun c => !(stringutilContains excl c))).map
          (fun c => searchSubClause v c) := by
  induction cols with
  | nil => intro acc; simp
  | cons c cs ih =>
    intro acc
    cases h : stringutilContains excl c <;> simp [h, ih]

theorem searchOrLoopAux (meta : TableMeta) (tn : String) (excl : List String) (vs : List String) :
    ∀ acc : List String,
      vs.foldl (fun acc v =>
        (meta.searchColumns tn).foldl (fun acc2 column =>
          if stringutilContains excl column then acc2
          else acc2 ++ [searchSubClause v column]) acc) acc
      = acc ++ vs.flatMap (fun v =>
          ((meta.searchColumns tn).filter (fun c => !(stringutilContains excl c))).map
            (fun c => searchSubClause v c)) := by
  induction vs with
  | nil => intro acc; simp
  | cons v vs ih =>
    intro acc
    simp only [List.foldl]
    rw [columnsLoop_eq, ih]
    simp

theorem searchOrLoop_eq (meta : TableMeta) (tn : String) (excl : List String) (vs : List String) :
    searchOrLoop meta tn excl vs
      = vs.flatMap (fun v =>
          ((meta.searchColumns tn).filter (fun c => !(stringutilContains excl c))).map
            (fun c => searchSubClause v c)) := by
  unfold searchOrLoop
  rw [searchOrLoopAux]
  simp

theorem joinSep_single (sep x : String) : joinSep sep [x] = x := rfl

theorem GetLimit_eq (n : Nat) :
    GetLimit n = if n > DefaultSelectLimit then DefaultSelectLimit else n := rfl

theorem getReqValue_strList (l : List String) :
    getReqValue (.strList l)
      = (if (l.filter (fun v => v ≠ "")).length = 0 then none
         else some (.strs (l.filter (fun v => v ≠ "")))) := by
  have h0 : l.foldl (fun acc v => if v ≠ "" then acc ++ [v] else acc) []
      = l.filter (fun v => v ≠ "") := by
    rw [strListLoop_eq]
    simp
  simp only [getReqValue]
  rw [h0]

theorem getSearchFilter_strs (meta : TableMeta) (tn : String) (excl : List String)
    (vs : List String) (st : Chain × Bool) :
    getSearchFilter meta tn (some (.strs vs)) excl st
      = (st.1 ++ [Clause.whereRaw (codeSearchClause meta tn excl vs)], st.2) := by
  have h1 : getSearchFilter meta tn (some (.strs vs)) excl st
      = (st.1 ++ [Clause.whereRaw (joinSep (" OR ") (searchOrLoop meta tn excl vs))], st.2) := rfl
  rw [h1, searchOrLoop_eq]
  rfl

theorem getSearchFilter_chain (meta : TableMeta) (tn : String) (value : Option FilterValue)
    (excl : List String) (st : Chain × Bool) :
    ∃ c : String, (getSearchFilter meta tn value excl st).1 = st.1 ++ [Clause.whereRaw c] := by
  cases value with
  | none => exact ⟨joinSep (" AND ") [], rfl⟩
  | some fv =>
    cases fv with
    | strs vs => exact ⟨_, rfl⟩
    | ints l => exact ⟨joinSep (" AND ") [], rfl⟩

theorem searchStep_chain (meta : TableMeta) (tn : String) (excl : List String)
    (st : Chain × Bool) (column : String) (param : ReqValue) :
    ∃ rest : Chain, (searchStep meta tn excl st column param).1 = st.1 ++ rest ∧
      ∀ cl ∈ rest, cl.isWhereIn = false := by
  unfold searchStep
  split
  · obtain ⟨c, hc⟩ := getSearchFilter_chain meta tn (getReqValue param) excl st
    exact ⟨[Clause.whereRaw c], hc, by simp [Clause.isWhereIn]⟩
  · exact ⟨[], by simp, by simp⟩

theorem indexedStep_absent (meta : TableMeta) (tn : String) (st : Chain × Bool)
    (column : String) (param : ReqValue) (h : getReqValue param = none) :
    indexedStep meta tn st column param = st := by
  unfold indexedStep
  cases meta.indexedColumns tn with
  | none => rfl
  | some cols =>
    by_cases hc : stringutilContains cols column <;> simp [hc, h]

theorem indexedStep_attach (meta : TableMeta) (tn : String) (st : Chain × Bool)
    (column : String) (param : ReqValue) (cols : List String) (v : FilterValue)
    (hic : meta.indexedColumns tn = some cols)
    (hc : stringutilContains cols column = true)
    (hv : getReqValue param = some v) :
    indexedStep meta tn st column param = (st.1 ++ [Clause.whereIn column v], st.2) := by
  unfold indexedStep
  rw [hic]
  simp [hc, hv]

theorem indexedStep_cases (meta : TableMeta) (tn : String) (st : Chain × Bool)
    (column : String) (param : ReqValue) :
    indexedStep meta tn st column param = st ∨
    ∃ v : FilterValue, getReqValue param = some v ∧
      indexedStep meta tn st column param = (st.1 ++ [Clause.whereIn column v], st.2) := by
  unfold indexedStep
  cases meta.indexedColumns tn with
  | none => exact Or.inl rfl
  | some cols =>
    by_cases hc : stringutilContains cols column
    · cases hv : getReqValue param with
      | none => exact Or.inl (by simp [hc])
      | some v => exact Or.inr ⟨v, rfl, by simp [hc]⟩
    · exact Or.inl (by simp [hc])

theorem processField_chain (meta : TableMeta) (tn : String) (excl : List String)
    (st : Chain × Bool) (f : ReqField) :
    ∃ rest : Chain, (processField meta tn excl st f).1 = st.1 ++ rest := by
  obtain ⟨rest, hr, _⟩ := searchStep_chain meta tn excl
    (indexedStep meta tn st (getFieldName f) f.value) (getFieldName f) f.value
  rcases indexedStep_cases meta tn st (getFieldName f) f.value with h | ⟨v, _, h⟩
  · exact ⟨rest, by simp only [processField]; rw [hr, h]⟩
  · refine ⟨[Clause.whereIn (getFieldName f) v] ++ rest, ?_⟩
    simp only [processField]
    rw [hr, h]
    simp

theorem buildFilterConditions_cons (meta : TableMeta) (st : Chain × Bool) (f : ReqField)
    (fs : List ReqField) (tn : String) (excl : List String) :
    buildFilterConditions meta st (f :: fs) tn excl
      = buildFilterConditions meta (processField meta tn excl st f) fs tn excl := rfl

theorem buildFilter_mem (meta : TableMeta) (tn : String) (excl : List String) :
    ∀ (req : List ReqField) (st : Chain × Bool) (cl : Clause),
      cl ∈ st.1 → cl ∈ (buildFilterConditions meta st req tn excl).1 := by
  intro req
  induction req with
  | nil => intro st cl h; exact h
  | cons f fs ih =>
    intro st cl h
    rw [buildFilterConditions_cons]
    apply ih
    obtain ⟨rest, hr⟩ := processField_chain meta tn excl st f
    rw [hr]
    exact List.mem_append_left _ h

theorem buildFilter_chain (meta : TableMeta) (tn : String) (excl : List String) :
    ∀ (req : List ReqField) (st : Chain × Bool),
      ∃ rest : Chain, (buildFilterConditions meta st req tn excl).1 = st.1 ++ rest := by
  intro req
  induction req with
  | nil => intro st; exact ⟨[], by simp [buildFilterConditions]⟩
  | cons f fs ih =>
    intro st
    rw [buildFilterConditions_cons]
    obtain ⟨r1, h1⟩ := processField_chain meta tn excl st f
    obtain ⟨r2, h2⟩ := ih (processField meta tn excl st f)
    exact ⟨r1 ++ r2, by rw [h2, h1]; simp⟩

theorem processField_mem_whereIn (meta : TableMeta) (tn : String) (excl : List String)
    (cols : List String) (st : Chain × Bool) (f : ReqField) (v : FilterValue)
    (hic : meta.indexedColumns tn = some cols)
    (hcol : getFieldName f ∈ cols)
    (hv : getReqValue f.value = some v) :
    Clause.whereIn (getFieldName f) v ∈ (processField meta tn excl st f).1 := by
  have hc : stringutilContains cols (getFieldName f) = true :=
    (stringutilContains_iff cols (getFieldName f)).mpr hcol
  have h1 := indexedStep_attach meta tn st (getFieldName f) f.value cols v hic hc hv
  obtain ⟨rest, hr, _⟩ := searchStep_chain meta tn excl
    (indexedStep meta tn st (getFieldName f) f.value) (getFieldName f) f.value
  simp only [processField]
  rw [hr, h1]
  simp

theorem buildFilter_mem_of_field (meta : TableMeta) (tn : String) (excl : List String)
    (cols : List String) (f : ReqField) (v : FilterValue)
    (hic : meta.indexedColumns tn = some cols)
    (hcol : getFieldName f ∈ cols)
    (hv : getReqValue f.value = some v) :
    ∀ (req : List ReqField), f ∈ req → ∀ st : Chain × Bool,
      Clause.whereIn (getFieldName f) v ∈ (buildFilterConditions meta st req tn excl).1 := by
  intro req
  induction req with
  | nil => intro h; cases h
  | cons g gs ih =>
    intro hmem st
    rw [buildFilterConditions_cons]
    rcases List.mem_cons.mp hmem with heq | hmem2
    · subst heq
      exact buildFilter_mem meta tn excl gs _ _
        (processField_mem_whereIn meta tn excl cols st f v hic hcol hv)
    · exact ih hmem2 _

/-! ## Claim theorems -/

/-- C1: for every table whose indexed-column set contains a request field's
tag-derived column, a field value that normalizes to a non-empty scalar list
makes the built chain contain an `IN` predicate on that column bound to
exactly that list, while a value that normalizes to absent makes the field
contribute no `IN` predicate at all. -/
theorem C1_indexed_in_filter (meta : TableMeta) (tn : String) (cols : List String)
    (excl : List String) (req : List ReqField) (f : ReqField) (st : Chain × Bool)
    (hic : meta.indexedColumns tn = some cols) (hcol : getFieldName f ∈ cols) :
    (∀ v : FilterValue, getReqValue f.value = some v → f ∈ req →
      Clause.whereIn (getFieldName f) v ∈ (buildFilterConditions meta st req tn excl).1) ∧
    (getReqValue f.value = none →
      ∃ rest : Chain, (processField meta tn excl st f).1 = st.1 ++ rest ∧
        ∀ cl ∈ rest, cl.isWhereIn = false) := by
  constructor
  · intro v hv hmem
    exact buildFilter_mem_of_field meta tn excl cols f v hic hcol hv req hmem st
  · intro hv
    obtain ⟨rest, hr, hni⟩ := searchStep_chain meta tn excl
      (indexedStep meta tn st (getFieldName f) f.value) (getFieldName f) f.value
    refine ⟨rest, ?_, hni⟩
    simp only [processField]
    rw [hr, indexedStep_absent meta tn st (getFieldName f) f.value hv]

/-- C1 witness: a request on table "user" with field tagged
"user_id,omitempty" carrying the string "u1" yields an `IN` predicate on
column user_id bound to the singleton list. -/
theorem C1_witness :
    Clause.whereIn (getFieldName ⟨"user_id,omitempty", ReqValue.str ("u1")⟩) (.strs (["u1"])) ∈
      (buildFilterConditions sampleMeta ([], false)
        [⟨"user_id,omitempty", ReqValue.str ("u1")⟩] ("user") []).1 :=
  (C1_indexed_in_filter sampleMeta ("user") (["user_id", "status"]) []
      [⟨"user_id,omitempty", ReqValue.str ("u1")⟩]
      ⟨"user_id,omitempty", ReqValue.str ("u1")⟩ ([], false)
      (by decide) (by decide)).1 (.strs (["u1"])) (by decide) (by decide)

/-- C2 counterexample: with searchable columns reduced to "username" by the
exclude list and two search terms, the code builds a single OR of the two
substring predicates, not the AND of per-term OR-groups the claim states. -/
theorem C2_counterexample :
    (getSearchFilter sampleMeta ("user") (some (.strs (["a", "b"])))
        (["user_id", "description"]) ([], false)).1
      = [Clause.whereRaw ("username LIKE \x27%a%\x27 OR username LIKE \x27%b%\x27")] ∧
    specSearchClause sampleMeta ("user") (["user_id", "description"]) (["a", "b"])
      = "username LIKE \x27%a%\x27 AND username LIKE \x27%b%\x27" ∧
    (getSearchFilter sampleMeta ("user") (some (.strs (["a", "b"])))
        (["user_id", "description"]) ([], false)).1
      ≠ [Clause.whereRaw (specSearchClause sampleMeta ("user")
          (["user_id", "description"]) (["a", "b"]))] := by
  refine ⟨by decide, by decide, by decide⟩

/-- C2 (amended): the search clause is one single OR-group with one
sub-clause per (term, searchable column not excluded) pair — `_id`-suffixed
columns by exact match, others by substring match on the neutralized term —
and that clause is attached to the chain; per-term groups are combined with
OR, not AND, across terms. The second conjunct shows a term containing a
literal percent sign being neutralized in the substring sub-clauses and used
verbatim in the exact-match sub-clause. -/
theorem C2_search_single_or_group (meta : TableMeta) (tn : String) (excl : List String)
    (vs : List String) (st : Chain × Bool) :
    getSearchFilter meta tn (some (.strs vs)) excl st
      = (st.1 ++ [Clause.whereRaw (codeSearchClause meta tn excl vs)], st.2) ∧
    codeSearchClause sampleMeta ("user") [] (["f%o"])
      = "user_id = \x27f%o\x27 OR username LIKE \x27%f\\%o%\x27 OR description LIKE \x27%f\\%o%\x27" :=
  ⟨getSearchFilter_strs meta tn excl vs st, by decide⟩

/-- C3: `getReqValue` yields absent for the empty string, a nil wrapped
scalar, and a string list whose elements are all empty; a singleton list for
a non-empty plain string and for non-nil wrapped scalars; and for a string
list the list of its non-empty elements. -/
theorem C3_getReqValue_normalization (s : String) (n : Int) (l : List String) :
    getReqValue (.str ("")) = none ∧
    (s ≠ "" → getReqValue (.str s) = some (.strs [s])) ∧
    getReqValue (.wrappedString none) = none ∧
    getReqValue (.wrappedString (some s)) = some (.strs [s]) ∧
    getReqValue (.wrappedInt none) = none ∧
    getReqValue (.wrappedInt (some n)) = some (.ints [n]) ∧
    ((∀ x ∈ l, x = "") → getReqValue (.strList l) = none) ∧
    ((∃ x ∈ l, x ≠ "") → getReqValue (.strList l)
        = some (.strs (l.filter (fun v => v ≠ "")))) := by
  refine ⟨rfl, ?_, rfl, rfl, rfl, rfl, ?_, ?_⟩
  · intro h
    simp [getReqValue, h]
  · intro h
    have hf : l.filter (fun v => v ≠ "") = [] := by
      rw [List.filter_eq_nil_iff]
      intro a ha
      simp [h a ha]
    rw [getReqValue_strList, hf]
    rfl
  · intro h
    obtain ⟨x, hx, hxne⟩ := h
    have hm : x ∈ l.filter (fun v => v ≠ "") :=
      List.mem_filter.mpr ⟨hx, by simp [hxne]⟩
    have hlen : ¬ (l.filter (fun v => v ≠ "")).length = 0 := by
      intro h0
      rw [List.length_eq_zero] at h0
      rw [h0] at hm
      cases hm
    rw [getReqValue_strList, if_neg hlen]

/-- C3 witness: normalization evaluated on a non-empty string and on string
lists with and without non-empty elements. -/
theorem C3_witness :
    getReqValue (ReqValue.str ("a")) = some (.strs (["a"])) ∧
    getReqValue (ReqValue.strList (["", "a", ""])) = some (.strs (["a"])) ∧
    getReqValue (ReqValue.strList (["", ""])) = none :=
  ⟨(C3_getReqValue_normalization ("a") 0 ([])).2.1 (by decide),
   ((C3_getReqValue_normalization ("a") 0 (["", "a", ""])).2.2.2.2.2.2.2
      (by decide)).trans (by decide),
   (C3_getReqValue_normalization ("a") 0 (["", ""])).2.2.2.2.2.2.1 (by decide)⟩

/-- C4: the build never aborts — a present but non-string-list search value
produces the same chain as an absent one, only setting the warning flag; an
absent filter value on a non-search field leaves the state untouched; and for
every request the build only appends clauses to the incoming chain. -/
theorem C4_no_abort_degrade (meta : TableMeta) (tn : String) (excl : List String)
    (st : Chain × Bool) (l : List Int) (f : ReqField) :
    ((getSearchFilter meta tn (some (.ints l)) excl st).1
        = (getSearchFilter meta tn none excl st).1 ∧
      (getSearchFilter meta tn (some (.ints l)) excl st).2 = true ∧
      (getSearchFilter meta tn none excl st).2 = st.2) ∧
    (getReqValue f.value = none →
      ¬ (getFieldName f = SearchWordColumnName ∧
          stringutilContains meta.searchWordColumnTable tn = true) →
      processField meta tn excl st f = st) ∧
    (∀ req : List ReqField, ∃ rest : Chain,
      (buildFilterConditions meta st req tn excl).1 = st.1 ++ rest) := by
  refine ⟨⟨rfl, rfl, rfl⟩, ?_, ?_⟩
  · intro hv hns
    simp only [processField]
    rw [indexedStep_absent meta tn st (getFieldName f) f.value hv]
    unfold searchStep
    rw [if_neg hns]
  · intro req
    exact buildFilter_chain meta tn excl req st

/-- C4 witness: an int-typed search value sets the warning flag, and an
absent value on an indexed non-search column is skipped without effect. -/
theorem C4_witness :
    (getSearchFilter sampleMeta ("user") (some (.ints ([1]))) [] ([], false)).2 = true ∧
    processField sampleMeta ("user") [] ([], false) ⟨"status,omitempty", ReqValue.str ("")⟩
      = ([], false) :=
  ⟨(C4_no_abort_degrade sampleMeta ("user") [] ([], false) ([1])
      ⟨"status,omitempty", ReqValue.str ("")⟩).1.2.1,
   (C4_no_abort_degrade sampleMeta ("user") [] ([], false) ([1])
      ⟨"status,omitempty", ReqValue.str ("")⟩).2.1 (by decide) (by decide)⟩

/-- C5: a non-empty root-group id list ANDs into the chain one clause that is
the OR over the ids of substring predicates on the group-path column, each id
neutralized; the empty list leaves the chain unchanged. -/
theorem C5_root_group_conditions (chain : Chain) (ids : List String) :
    (ids ≠ [] → BuildRootGroupIdConditions chain ids
      = chain ++ [Clause.whereRaw (joinSep (" OR ") (ids.map rootGroupCondition))]) ∧
    BuildRootGroupIdConditions chain [] = chain := by
  constructor
  · intro h
    have hl : ids.length > 0 := List.length_pos.mpr h
    unfold BuildRootGroupIdConditions
    rw [if_pos hl, rootGroupLoop_eq]
    simp
  · rfl

/-- C5 witness: two ids yield one OR clause of two substring predicates on
the group-path column; evaluated to the literal condition string. -/
theorem C5_witness :
    BuildRootGroupIdConditions [] (["g1", "g2"])
      = [Clause.whereRaw ("group_path LIKE \x27%g1%\x27 OR group_path LIKE \x27%g2%\x27")] :=
  ((C5_root_group_conditions [] (["g1", "g2"])).1 (by decide)).trans (by decide)

/-- C6 counterexample: a field with an absent (empty) tag gets column name
"" from `getFieldName`, not the sentinel "-": splitting any string on a comma
yields at least one piece, so the sentinel branch never fires. -/
theorem C6_counterexample :
    getFieldName ⟨"", ReqValue.other⟩ = "" ∧ getFieldName ⟨"", ReqValue.other⟩ ≠ "-" := by
  refine ⟨by decide, by decide⟩

/-- C6 (amended): a field whose declared tag is absent (the empty tag) gets
the empty string as its derived column name; the "-" sentinel branch is
unreachable. -/
theorem C6_absent_tag_empty (f : ReqField) (h : f.tag = "") :
    getFieldName f = "" := by
  unfold getFieldName
  rw [h]
  decide

/-- C6 witness: the amended statement evaluated on a concrete untagged
field. -/
theorem C6_witness : getFieldName ⟨"", ReqValue.str ("x")⟩ = "" :=
  C6_absent_tag_empty ⟨"", ReqValue.str ("x")⟩ rfl

/-- C7: the limit from a request is the default 20 when 0, clamped to 200
when above 200, and kept as is otherwise. -/
theorem C7_limit_clamping (req : PageRequest) :
    (req.limit = 0 → GetLimitFromRequest req = 20) ∧
    (req.limit > 200 → GetLimitFromRequest req = 200) ∧
    (0 < req.limit → req.limit ≤ 200 → GetLimitFromRequest req = req.limit) := by
  refine ⟨?_, ?_, ?_⟩
  · intro h
    unfold GetLimitFromRequest
    rw [if_pos h]
    rfl
  · intro h
    unfold GetLimitFromRequest
    rw [if_neg (by omega), GetLimit_eq]
    unfold DefaultSelectLimit
    rw [if_pos h]
  · intro h1 h2
    unfold GetLimitFromRequest
    rw [if_neg (by omega), GetLimit_eq]
    unfold DefaultSelectLimit
    rw [if_neg (by omega)]

/-- C7 witness: limits 0, 500 and 50 map to 20, 200 and 50. -/
theorem C7_witness :
    GetLimitFromRequest ⟨0, 0⟩ = 20 ∧
    GetLimitFromRequest ⟨0, 500⟩ = 200 ∧
    GetLimitFromRequest ⟨0, 50⟩ = 50 :=
  ⟨(C7_limit_clamping ⟨0, 0⟩).1 rfl,
   (C7_limit_clamping ⟨0, 500⟩).2.1 (by decide),
   (C7_limit_clamping ⟨0, 50⟩).2.2 (by decide) (by decide)⟩

/-- C8: display-column projection returns the whole set for a nil request,
nothing for an explicitly empty request, and otherwise the requested columns
filtered to those present in the whole set, unknown columns dropped. -/
theorem C8_display_columns (whole : List String) (ds : List String) :
    GetDisplayColumns none whole = whole ∧
    GetDisplayColumns (some []) whole = [] ∧
    GetDisplayColumns (some ds) whole
      = (if ds.length = 0 then []
         else ds.filter (fun c => stringutilContains whole c)) := by
  refine ⟨rfl, rfl, ?_⟩
  by_cases h : ds.length = 0
  · simp [GetDisplayColumns, h]
  · simp only [GetDisplayColumns, if_neg h]
    rw [displayLoop_eq]
    simp

/-- C8 witness: requesting columns a and z against whole columns a and b
yields exactly column a. -/
theorem C8_witness :
    GetDisplayColumns (some (["a", "z"])) (["a", "b"]) = ["a"] :=
  ((C8_display_columns (["a", "b"]) (["a", "z"])).2.2).trans (by decide)

/-- C9: the ordering clause is `ORDER BY S D` with S the request's sort key
when a non-empty one is exposed and the default column otherwise, and D
ascending exactly when an exposed reverse flag is true. -/
theorem C9_order_clause (chain : Chain) (req : OrderRequest) (defaultColumn : String) :
    AddQueryOrderDir chain req defaultColumn
      = chain ++ [Clause.orderBy
          (specSortColumn req defaultColumn ++ " " ++ specOrderDir req)] := by
  obtain ⟨sk, rv⟩ := req
  unfold AddQueryOrderDir specSortColumn specOrderDir
  cases rv with
  | none =>
    cases sk with
    | none => rfl
    | some s => by_cases h : s = "" <;> simp [h]
  | some b =>
    cases b <;>
      (cases sk with
      | none => rfl
      | some s => by_cases h : s = "" <;> simp [h])

/-- C9 witness: an empty sort key with reverse false on default column
create_time yields ORDER BY create_time DESC; sort key name with reverse
true yields ORDER BY name ASC. -/
theorem C9_witness :
    AddQueryOrderDir [] ⟨some (""), some false⟩ ("create_time")
      = [Clause.orderBy ("create_time DESC")] ∧
    AddQueryOrderDir [] ⟨some ("name"), some true⟩ ("create_time")
      = [Clause.orderBy ("name ASC")] :=
  ⟨(C9_order_clause [] ⟨some (""), some false⟩ ("create_time")).trans (by decide),
   (C9_order_clause [] ⟨some ("name"), some true⟩ ("create_time")).trans (by decide)⟩

/-- C10: when the user lookup succeeds, a bcrypt mismatch yields Ok=false
with nil error and a match yields Ok=true with nil error; a nil response or
a non-nil error happens only when the lookup itself failed. -/
theorem C10_compare_password (takeUser : Except String User)
    (bcryptMatches : String → String → Bool) (pw : String) :
    (∀ u : User, takeUser = .ok u → bcryptMatches u.password pw = false →
      ComparePassword takeUser bcryptMatches pw = ⟨some ⟨false⟩, none⟩) ∧
    (∀ u : User, takeUser = .ok u → bcryptMatches u.password pw = true →
      ComparePassword takeUser bcryptMatches pw = ⟨some ⟨true⟩, none⟩) ∧
    (((ComparePassword takeUser bcryptMatches pw).resp = none ∨
      (ComparePassword takeUser bcryptMatches pw).err ≠ none) →
      ∃ e : String, takeUser = .error e) := by
  refine ⟨?_, ?_, ?_⟩
  · intro u hu hb
    subst hu
    simp [ComparePassword, hb]
  · intro u hu hb
    subst hu
    simp [ComparePassword, hb]
  · intro h
    cases htu : takeUser with
    | error e => exact ⟨e, rfl⟩
    | ok u =>
      exfalso
      rw [htu] at h
      by_cases hb : bcryptMatches u.password pw = true
      · rcases h with h | h <;> simp [ComparePassword, hb] at h
      · rcases h with h | h <;> simp [ComparePassword, hb] at h

/-- C10 witness: with a successful lookup, equality-based matching evaluated
on a wrong and on a right password yields Ok=false and Ok=true, both with
nil error. -/
theorem C10_witness :
    ComparePassword (Except.ok ⟨"u1", "hash"⟩) (fun a b => a == b) ("wrong")
      = ⟨some ⟨false⟩, none⟩ ∧
    ComparePassword (Except.ok ⟨"u1", "hash"⟩) (fun a b => a == b) ("hash")
      = ⟨some ⟨true⟩, none⟩ :=
  ⟨(C10_compare_password (Except.ok ⟨"u1", "hash"⟩) (fun a b => a == b) ("wrong")).1
      ⟨"u1", "hash"⟩ rfl (by decide),
   (C10_compare_password (Except.ok ⟨"u1", "hash"⟩) (fun a b => a == b) ("hash")).2.1
      ⟨"u1", "hash"⟩ rfl (by decide)⟩

end Im
